import Mathlib

/-!
# Verification of the `config` runtime type-validation engine

A shallow embedding of the canonical source pair `src/types.ts` + `src/config.ts`:
the JS value domain, the `TypeValidator` hierarchy (leaf factories, `struct`,
`getType`/`hasOwn`), and the `Config` operations (`failLoad`, `failSet`,
`keyList`).  JS machine doubles are modelled as extended rationals
(finite value, `Infinity`, `-Infinity`, `NaN`); JS plain objects as ordered
association lists of own enumerable string keys; the default `JSON` parser
(an external collaborator of the library) as a codec between values and a
JSON parse-tree type.  All definitions are executable.
-/

/-- JS numbers as used by the validators: a finite value (ℚ embeds every
double exactly), the two infinities and `NaN`.  Not every rational is a
double, so every concrete number a theorem feeds to the program is chosen
IEEE-754-representable (an integer of magnitude below `2^53`, or an exact
multiple of the spacing of its binade). -/
inductive JSNum where
  | fin : ℚ → JSNum
  | posInf : JSNum
  | negInf : JSNum
  | nan : JSNum
deriving DecidableEq, Repr

/-- `Number.MAX_SAFE_INTEGER`. -/
def maxSafeInteger : JSNum := JSNum.fin 9007199254740991

/-- `Number.MIN_SAFE_INTEGER`. -/
def minSafeInteger : JSNum := JSNum.fin (-9007199254740991)

/-- JS `<=` on numbers: false whenever either side is `NaN`. -/
def jsLe : JSNum → JSNum → Bool
  | JSNum.nan, _ => false
  | _, JSNum.nan => false
  | JSNum.negInf, _ => true
  | _, JSNum.posInf => true
  | JSNum.posInf, _ => false
  | JSNum.fin a, JSNum.fin b => decide (a ≤ b)
  | JSNum.fin _, JSNum.negInf => false

/-- JS `>=` on numbers. -/
def jsGe (a b : JSNum) : Bool := jsLe b a

/-- `Number.isInteger`. -/
def jsIsInteger : JSNum → Bool
  | JSNum.fin q => q.den = 1
  | _ => false

/-- `String(n)` for a JS number.  Integral values print as decimal integers
(the only case any theorem evaluates concretely); the decimal rendering of a
non-integral double is outside the modelled fragment and is represented by
the exact rational. -/
def jsNumToString : JSNum → String
  | JSNum.posInf => "Infinity"
  | JSNum.negInf => "-Infinity"
  | JSNum.nan => "NaN"
  | JSNum.fin q => if q.den = 1 then toString q.num else toString q

/-- JS runtime values in the fragment the validators operate on:
`undefined`, `null`, booleans, numbers, strings, arrays, and plain objects
(`constructor === Object`) given as their ordered own enumerable
string-keyed entries. -/
inductive JSVal where
  | undef : JSVal
  | null : JSVal
  | bool : Bool → JSVal
  | num : JSNum → JSVal
  | str : String → JSVal
  | arr : List JSVal → JSVal
  | obj : List (String × JSVal) → JSVal

/-- `v === undefined`. -/
def JSVal.isUndef : JSVal → Bool
  | JSVal.undef => true
  | _ => false

/-- First binding of a key in an entry list (a real JS object has no
duplicate keys, so the first binding is the binding). -/
def lookupField (fields : List (String × JSVal)) (k : String) : Option JSVal :=
  (fields.find? (fun p => p.1 == k)).map Prod.snd

/-- `object[key]` on the modelled values: an absent key reads as
`undefined`; indexing a non-object is outside the modelled fragment and
also reads as `undefined`. -/
def jsIndex (v : JSVal) (k : String) : JSVal :=
  match v with
  | JSVal.obj fields => (lookupField fields k).getD JSVal.undef
  | _ => JSVal.undef

/-- `Object.hasOwn(v, k)`: a present key, even one bound to `undefined`,
is owned.  Own properties of non-plain-object values are outside the
modelled fragment. -/
def hasFieldV (v : JSVal) (k : String) : Bool :=
  match v with
  | JSVal.obj fields => (lookupField fields k).isSome
  | _ => false

/-- `object[key] = value`: replaces the existing binding in place, else
appends a new one (JS key insertion order). -/
def setField : List (String × JSVal) → String → JSVal → List (String × JSVal)
  | [], k, v => [(k, v)]
  | (k', v') :: rest, k, v =>
    if k' == k then (k', v) :: rest else (k', v') :: setField rest k v

/-- JS falsiness: `undefined`, `null`, `false`, `0`, `NaN` and `""` are
falsy; every object (even `{}`) is truthy. -/
def jsFalsy : JSVal → Bool
  | JSVal.undef => true
  | JSVal.null => true
  | JSVal.bool b => !b
  | JSVal.num n => n == JSNum.fin 0 || n == JSNum.nan
  | JSVal.str s => s == ""
  | JSVal.arr _ => false
  | JSVal.obj _ => false

mutual

/-- `util.format('%o', v)` on the modelled fragment (`util.inspect`
rendering: quoted strings, bracketed composites). -/
def formatO : JSVal → String
  | JSVal.undef => "undefined"
  | JSVal.null => "null"
  | JSVal.bool b => if b then "true" else "false"
  | JSVal.num n => jsNumToString n
  | JSVal.str s => "'" ++ s ++ "'"
  | JSVal.arr xs =>
    "[ " ++ String.intercalate ", "
      (formatOList xs ++ ["[length]: " ++ toString xs.length]) ++ " ]"
  | JSVal.obj fields =>
    "\x7b " ++ String.intercalate ", " (formatOFields fields) ++ " \x7d"

def formatOList : List JSVal → List String
  | [] => []
  | x :: xs => formatO x :: formatOList xs

def formatOFields : List (String × JSVal) → List String
  | [] => []
  | p :: ps => (p.1 ++ ": " ++ formatO p.2) :: formatOFields ps

end

/-- JS string coercion `String(v)` on the modelled fragment. -/
def jsToString : JSVal → String
  | JSVal.undef => "undefined"
  | JSVal.null => "null"
  | JSVal.bool b => if b then "true" else "false"
  | JSVal.num n => jsNumToString n
  | JSVal.str s => s
  | JSVal.arr _ => "<array>"
  | JSVal.obj _ => "[object Object]"

/-- Number of (possibly overlapping) occurrences of `pat` in `s`,
counted as start positions; formalises "number of mentions of a phrase
in a message". -/
def countOccs (pat s : String) : Nat :=
  ((List.range (s.data.length + 1)).filter
    (fun i => pat.data.isPrefixOf (s.data.drop i))).length

/-!
## The `TypeValidator` core (`src/types.ts`)

A validator is the flat record a factory call produces: the class fields of
`TypeValidator` plus the closure `options.fail` (`failCore` here).
`TypeValidator.fail` is the constructor's wrapper that short-circuits
`undefined` for optional validators.  The `parser` field is fixed to the
default `JSON` parser (the one external codec the claims mention), so it
carries no data here.
-/

/-- A constructed `TypeValidator`.  `isObjectLike` is the class field that
the `TypeValidatorObject`/`TypeValidatorStruct` subclasses override to
`true`. -/
structure Validator where
  optional : Bool
  defaultVal : JSVal
  typeName : String
  failCore : JSVal → Option String
  afterParse : Option (JSVal → JSVal)
  isObjectLike : Bool

/-- The wrapped `fail` installed by the `TypeValidator` constructor:
`undefined` passes immediately when the validator is optional, otherwise
the factory's `fail` body runs. -/
def Validator.fail (t : Validator) (v : JSVal) : Option String :=
  match v, t.optional with
  | JSVal.undef, true => none
  | _, _ => t.failCore v

/-- The second argument of `check`: either the literal sentinel `0`
("compute the message now") or an already-computed message. -/
inductive ErrorArg where
  | sentinel : ErrorArg
  | msg : Option String → ErrorArg

/-- `TypeValidator.check(value, error)`. -/
def Validator.checkWith (t : Validator) (v : JSVal) (e : ErrorArg) : Bool :=
  match e with
  | ErrorArg.sentinel => (t.fail v).isNone
  | ErrorArg.msg m => m.isNone

/-- The `?`-prefixed type name computed by the `TypeValidator`
constructor. -/
def mkTypeName (optional : Bool) (base : String) : String :=
  (if optional then "?" else "") ++ base

/-!
## Leaf factories
-/

/-- The common `TypeOptions`: `optional` (`?? false` at construction) and
`defaultVal` (`undefined` when not supplied). -/
structure BaseOpts where
  optional : Option Bool
  defaultVal : JSVal

/-- `TypeOptions` with everything absent. -/
def noOpts : BaseOpts := { optional := none, defaultVal := JSVal.undef }

/-- `boolean(options)`. -/
def booleanV (o : BaseOpts) : Validator :=
  let opt := o.optional.getD false
  let tn := mkTypeName opt "boolean"
  { optional := opt
    defaultVal := o.defaultVal
    typeName := tn
    failCore := fun v =>
      match v with
      | JSVal.bool _ => none
      | _ => some ("The value should be a " ++ tn ++ ".")
    afterParse := none
    isObjectLike := false }

/-- A `pattern` option for `string`: a regex (modelled by its test
predicate together with its `source` text, the regex engine being an
external collaborator) or a callback. -/
inductive StrPattern where
  | regex : (String → Bool) → String → StrPattern
  | callback : (String → Option String) → StrPattern

/-- `StringOptions`. -/
structure StringOpts where
  optional : Option Bool
  defaultVal : JSVal
  pattern : Option StrPattern

/-- `string(options)`.  Note the callback branch of the source returns its
message unconditionally, and the template literal interpolates an
`undefined` callback result as the literal text `undefined`. -/
def stringV (o : StringOpts) : Validator :=
  let opt := o.optional.getD false
  let tn := mkTypeName opt "string"
  { optional := opt
    defaultVal := o.defaultVal
    typeName := tn
    failCore := fun v =>
      match v with
      | JSVal.str s =>
        match o.pattern with
        | some (StrPattern.regex test source) =>
          if !test s then
            some ("Should satisfy the regex pattern: " ++ source ++ ". Got '"
              ++ formatO (JSVal.str s) ++ "'.")
          else none
        | some (StrPattern.callback f) =>
          let message := (f s).getD "undefined"
          some ("Should be a specific " ++ tn ++ ". Got '"
            ++ formatO (JSVal.str s) ++ "'. " ++ message)
        | none => none
      | _ => some ("Should be a " ++ tn ++ ". Got '" ++ formatO v ++ "'.")
    afterParse := none
    isObjectLike := false }

/-- A `pattern` option for `number`/`integer`. -/
inductive NumPattern where
  | regex : (String → Bool) → String → NumPattern
  | callback : (JSNum → String → Option String) → NumPattern

/-- `NumberOptions` / `IntegerOptions`: `min ?? -Infinity`,
`max ?? Infinity`. -/
structure NumberOpts where
  optional : Option Bool
  defaultVal : JSVal
  min : Option JSNum
  max : Option JSNum
  pattern : Option NumPattern

/-- `NumberOptions` with everything absent. -/
def noNumberOpts : NumberOpts :=
  { optional := none, defaultVal := JSVal.undef, min := none, max := none
    pattern := none }

/-- `labeledNumber(number)` from `src/types.ts`: the number is rendered
as supplied and only receives a textual label when it is exactly
`Number.MAX_SAFE_INTEGER` or `Number.MIN_SAFE_INTEGER`. -/
def labeledNumber (n : JSNum) : String :=
  let label :=
    if n = maxSafeInteger then "Max safe integer"
    else if n = minSafeInteger then "Min safe integer"
    else ""
  if label = "" then jsNumToString n
  else jsNumToString n ++ " (" ++ label ++ ")"

/-- The range-failure message of `number()` / `integer()`:
`Should be a/an <typeName>: <labeled min> - <labeled max>. Got: <value>.` -/
def numRangeError (article tn : String) (minv maxv : JSNum) (v : JSVal) : String :=
  "Should be " ++ article ++ " " ++ tn ++ ": " ++ labeledNumber minv ++ " - "
    ++ labeledNumber maxv ++ ". Got: " ++ formatO v ++ "."

/-- The appended-callback-message fragment: JS `message ? ' ' + message : ''`
(an empty string is falsy). -/
def truthyAppend : Option String → String
  | some m => if m = "" then "" else " " ++ m
  | none => ""

/-- `number(options)`. -/
def numberV (o : NumberOpts) : Validator :=
  let opt := o.optional.getD false
  let minv := o.min.getD JSNum.negInf
  let maxv := o.max.getD JSNum.posInf
  let tn := mkTypeName opt "number"
  { optional := opt
    defaultVal := o.defaultVal
    typeName := tn
    failCore := fun v =>
      let error := numRangeError "a" tn minv maxv v
      match v with
      | JSVal.num n =>
        if !(jsLe n maxv && jsGe n minv) then some error
        else
          match o.pattern with
          | some (NumPattern.regex test source) =>
            if !test (jsNumToString n) then
              some ("Should satisfy the regex pattern: " ++ source
                ++ ". Got: '" ++ formatO (JSVal.num n) ++ "'.")
            else none
          | some (NumPattern.callback f) =>
            some ("Should be a specific " ++ tn ++ ". Got: '"
              ++ formatO (JSVal.num n) ++ "'."
              ++ truthyAppend (f n (jsNumToString n)))
          | none => none
      | _ => some error
    afterParse := none
    isObjectLike := false }

/-- `integer(options)`: as `number` but the whole-number test runs after
the range and pattern branches. -/
def integerV (o : NumberOpts) : Validator :=
  let opt := o.optional.getD false
  let minv := o.min.getD JSNum.negInf
  let maxv := o.max.getD JSNum.posInf
  let tn := mkTypeName opt "integer"
  { optional := opt
    defaultVal := o.defaultVal
    typeName := tn
    failCore := fun v =>
      let error := numRangeError "an" tn minv maxv v
      match v with
      | JSVal.num n =>
        if !(jsLe n maxv && jsGe n minv) then some error
        else
          match o.pattern with
          | some (NumPattern.regex test source) =>
            if !test (jsNumToString n) then
              some ("Should satisfy the regex pattern: " ++ source
                ++ ". Got: '" ++ formatO (JSVal.num n) ++ "'.")
            else if !jsIsInteger n then some error
            else none
          | some (NumPattern.callback f) =>
            some ("Should be a specific " ++ tn ++ ". Got: '"
              ++ formatO (JSVal.num n) ++ "'."
              ++ truthyAppend (f n (jsNumToString n)))
          | none => if !jsIsInteger n then some error else none
      | _ => some error
    afterParse := none
    isObjectLike := false }

/-!
## `struct` (`TypeValidatorStruct` and the `struct` factory)
-/

/-- A `DynamicPropertyCalculation` descriptor: `validator?`, `override?`,
`info?`. -/
structure DynCalc where
  validator : Option Validator
  override : Option Bool
  info : Option String

/-- The descriptor `{}`. -/
def emptyDynCalc : DynCalc := { validator := none, override := none, info := none }

/-- `StructOptions.dynamicProperties`: a static descriptor or a per-key
callback receiving the object and the pair
`[overriddenProperty, this.properties[key]]`. -/
inductive DynProps where
  | calc : DynCalc → DynProps
  | func : (JSVal → String × Option Validator → Option DynCalc) → DynProps

/-- The data of a `TypeValidatorStruct` beyond the base class:
`properties` (an ordered record of property validators) and
`dynamicProperties`. -/
structure StructData where
  properties : List (String × Validator)
  dynamicProperties : Option DynProps

/-- `this.properties[key]` (`undefined` when the key has no fixed
property). -/
def lookupProp (props : List (String × Validator)) (k : String) : Option Validator :=
  (props.find? (fun p => p.1 == k)).map Prod.snd

/-- The body of `TypeValidatorStruct.getType`: resolves the property
validator for a key from the fixed `properties` and the dynamic
descriptor, with `override` preferring the dynamic validator. -/
def getTypeCore (s : StructData) (object : JSVal) (key : String) :
    Option Validator × DynCalc :=
  if hasFieldV object key = false then (none, emptyDynCalc)
  else
    let d0 : Option DynCalc :=
      match s.dynamicProperties with
      | some (DynProps.func f) => f object (key, lookupProp s.properties key)
      | some (DynProps.calc c) => some c
      | none => none
    let d1 := d0.getD emptyDynCalc
    let d2 : DynCalc :=
      { validator := d1.validator
        override := some (d1.override.getD false)
        info := d1.info }
    let propertyType : Option Validator :=
      if d1.override.getD false then
        match d1.validator with
        | some t => some t
        | none => lookupProp s.properties key
      else
        match lookupProp s.properties key with
        | some t => some t
        | none => d1.validator
    (propertyType, d2)

/-- `getType` as the JS caller sees it: a JS function returns either a
value or `undefined`, and this one returns a two-element array on every
path, so the outer option is `some` on every path. -/
def getTypeS (s : StructData) (object : JSVal) (key : String) :
    Option (Option Validator × DynCalc) :=
  some (getTypeCore s object key)

/-- `TypeValidatorStruct.hasOwn(object, key)`: the literal comparison
`this.getType(object, key) === undefined` from the source. -/
def structHasOwn (s : StructData) (object : JSVal) (key : String) : Bool :=
  (getTypeS s object key).isNone

/-- `new Set(list)` iteration order: first occurrence wins. -/
def dedupFirstAux : List String → List String → List String
  | _, [] => []
  | seen, x :: xs =>
    if x ∈ seen then dedupFirstAux seen xs
    else x :: dedupFirstAux (x :: seen) xs

/-- `Array.from(new Set(list))`. -/
def dedupFirst (l : List String) : List String := dedupFirstAux [] l

/-- `new Set([...typeKeys].concat(Object.keys(object)))` in the `struct`
`fail` body. -/
def keysToProcessS (s : StructData) (fields : List (String × JSVal)) : List String :=
  dedupFirst (s.properties.map Prod.fst ++ fields.map Prod.fst)

/-- One iteration of the key loop in the `struct` `fail` body: `none` when
the key contributes no error entry (absent key, or present and passing),
otherwise the pushed entry. -/
def structEntry (s : StructData) (fields : List (String × JSVal)) (key : String) :
    Option String :=
  if hasFieldV (JSVal.obj fields) key then
    let r := getTypeCore s (JSVal.obj fields) key
    match r.1 with
    | none =>
      some ("Unexpected key '" ++ key ++ "'." ++ truthyAppend r.2.info)
    | some propertyType =>
      match propertyType.fail (jsIndex (JSVal.obj fields) key) with
      | some message => some ("Bad value for the key '" ++ key ++ "'. " ++ message)
      | none => none
  else none

/-- The `errorList` accumulated by the key loop. -/
def structErrorList (s : StructData) (fields : List (String × JSVal)) : List String :=
  (keysToProcessS s fields).filterMap (structEntry s fields)

/-- The `fail` body the `struct` factory installs: the plain-object gate,
then the aggregated per-key error list. -/
def structFailCore (tn : String) (s : StructData) (v : JSVal) : Option String :=
  match v with
  | JSVal.obj fields =>
    let errorList := structErrorList s fields
    if errorList.isEmpty then none
    else some ("The value should be a " ++ tn ++ ":\n"
      ++ String.intercalate "\n\n" errorList)
  | _ => some ("The value should be a " ++ tn ++ ".")

/-- The `defaultVal` computed by the `TypeValidatorStruct` constructor:
`Object.fromEntries(Object.entries(properties).map(([key, type]) =>
[key, type.defaultVal]))`.  No validation of this composed record happens
anywhere in the constructor. -/
def structDefaultVal (props : List (String × Validator)) : JSVal :=
  JSVal.obj (props.map (fun kt => (kt.1, kt.2.defaultVal)))

/-- `struct(options)`: assembles the `TypeValidatorStruct` instance. -/
def structV (optionalOpt : Option Bool) (s : StructData) : Validator :=
  let opt := optionalOpt.getD false
  let tn := mkTypeName opt "struct"
  { optional := opt
    defaultVal := structDefaultVal s.properties
    typeName := tn
    failCore := structFailCore tn s
    afterParse := none
    isObjectLike := true }

/-- The validator the key loop resolves for a key (`getType`'s first
component). -/
def resolvedPropType (s : StructData) (fields : List (String × JSVal))
    (k : String) : Option Validator :=
  (getTypeCore s (JSVal.obj fields) k).1

/-- A key whose resolved validator exists and rejects the key's value. -/
def keyRejected (s : StructData) (fields : List (String × JSVal))
    (k : String) : Bool :=
  match resolvedPropType s fields k with
  | some t => (t.fail (jsIndex (JSVal.obj fields) k)).isSome
  | none => false

/-- A key for which no validator resolves (reported as unexpected). -/
def keyUnexpected (s : StructData) (fields : List (String × JSVal))
    (k : String) : Bool :=
  (resolvedPropType s fields k).isNone

/-!
## `Config` (`src/config.ts`)

File existence, raw reading and `parser.parse` are external collaborators;
a `failLoad` run is parameterized by their combined outcome.
-/

/-- Outcome of `existsSync` + `readFileSync` + `parser.parse`: the file is
absent, or the decode threw, or it produced a value. -/
inductive DiskRead where
  | absent : DiskRead
  | parseError : DiskRead
  | decoded : JSVal → DiskRead

/-- The tail of `failLoad` after `parsed` is known: compute
`this.type.fail(parsed) ?? this.type.fail(this.data)`, adopt `parsed` only
when `check(parsed, message)` holds, and return the message.  The result is
the new `data` paired with the returned message. -/
def failLoadStep (t : Validator) (data0 parsed : JSVal) : JSVal × Option String :=
  let message := (t.fail parsed).or (t.fail data0)
  if t.checkWith parsed (ErrorArg.msg message) then (parsed, message)
  else (data0, message)

/-- `Config.failLoad()`: an absent file stands for `type.defaultVal`, a
decode exception reports `Unable to parse`, otherwise the common tail
runs on the decoded value. -/
def failLoadModel (t : Validator) (path : String) (data0 : JSVal)
    (d : DiskRead) : JSVal × Option String :=
  match d with
  | DiskRead.parseError => (data0, some ("Unable to parse: " ++ path ++ "."))
  | DiskRead.absent => failLoadStep t data0 t.defaultVal
  | DiskRead.decoded v => failLoadStep t data0 v

/-- `Config.isObjectLike(error)`: the `type` is struct/object-shaped and
`check(data, error)` holds for the caller-supplied `error` argument. -/
def isObjectLikeModel (t : Validator) (data : JSVal) (e : ErrorArg) : Bool :=
  t.isObjectLike && t.checkWith data e

/-- `((this.data as Types.ObjectLike) ||= {})[key] = value`: a falsy
`data` is first replaced by `{}`; assignment to a truthy primitive raises
a strict-mode `TypeError` (`Except.error`); named-property assignment on
an array is outside the modelled fragment. -/
def jsSetKeyOrInit (data : JSVal) (key : String) (v : JSVal) :
    Except Unit JSVal :=
  let base := if jsFalsy data then JSVal.obj [] else data
  match base with
  | JSVal.obj fields => Except.ok (JSVal.obj (setField fields key v))
  | _ => Except.error ()

/-- `Config.failSet(key, value)`: the `isObjectLike(undefined)` gate, the
whole-`type` check of `value`, then the keyed assignment.  The normal
result is the new `data` paired with the returned message;
`Except.error` is the strict-mode assignment `TypeError`. -/
def failSetModel (t : Validator) (data : JSVal) (key : String) (value : JSVal) :
    Except Unit (JSVal × Option String) :=
  if !(isObjectLikeModel t data (ErrorArg.msg none)) then
    Except.ok (data, some ("Unable to set the key: '" ++ key ++ "'."))
  else
    match t.fail value with
    | some error =>
      Except.ok (data, some ("Unable to set the key: '" ++ key ++ "'. Got: "
        ++ formatO value ++ ". " ++ error))
    | none =>
      match jsSetKeyOrInit data key value with
      | Except.ok data1 => Except.ok (data1, none)
      | Except.error _ => Except.error ()

/-- The `mode` option of `get`/`keyList`. -/
inductive GetMode where
  | real : GetMode
  | current : GetMode
  | default : GetMode

/-- A JS expression that is either a runtime value or a validator object;
the operand shape of `this.data?.[key] ?? value` inside `keyList`, where
`value` is the property's `TypeValidator`. -/
inductive JsEntity where
  | val : JSVal → JsEntity
  | validator : Validator → JsEntity

/-- `x !== undefined` on such an operand: a validator object is never
`undefined`. -/
def entityIsDefined : JsEntity → Bool
  | JsEntity.val w => !w.isUndef
  | JsEntity.validator _ => true

/-- `this.data?.[key]`: `undefined` when `data` is nullish. -/
def optChainIndex (data : JSVal) (k : String) : JSVal :=
  match data with
  | JSVal.undef => JSVal.undef
  | JSVal.null => JSVal.undef
  | v => jsIndex v k

/-- `a ?? b` with a validator fallback. -/
def coalesceEntity (a : JSVal) (b : JsEntity) : JsEntity :=
  match a with
  | JSVal.undef => b
  | JSVal.null => b
  | v => JsEntity.val v

/-- `Object.keys(this.data)` guarded by `this.data ? ... : []`. -/
def currentKeys (data : JSVal) : List String :=
  if jsFalsy data then []
  else match data with
    | JSVal.obj fields => fields.map Prod.fst
    | _ => []

/-- `Config.keyList(options)` for a config whose `type` is the
`TypeValidatorStruct` built from `s` (so both `instanceof` branches
apply): throws (`Except.error`) when the `isObjectLike(undefined)` gate
fails, otherwise filters `Object.entries(this.type.properties)` exactly as
the source does — mode `real` keeps keys with
`(this.data?.[key] ?? value) !== undefined` and mode `default` keeps keys
with `value !== undefined`, `value` being the property's validator
object. -/
def keyListStructModel (t : Validator) (s : StructData) (data : JSVal)
    (mode : GetMode) : Except Unit (List String) :=
  if !(isObjectLikeModel t data (ErrorArg.msg none)) then Except.error ()
  else Except.ok (
    match mode with
    | GetMode.real =>
      (s.properties.filter (fun kv =>
        entityIsDefined (coalesceEntity (optChainIndex data kv.1)
          (JsEntity.validator kv.2)))).map Prod.fst
    | GetMode.default =>
      (s.properties.filter (fun kv =>
        entityIsDefined (JsEntity.validator kv.2))).map Prod.fst
    | GetMode.current => currentKeys data)

/-!
## The default `JSON` parser (external collaborator)

`JSON.stringify`/`JSON.parse` are modelled at the level of the JSON parse
tree `Json` (in bijection with the serialized text up to whitespace and
number spelling): `stringifyJson` produces the tree `JSON.stringify` would
print, or `none` when `JSON.stringify` returns `undefined`; `dj` is the
value `JSON.parse` rebuilds from a tree.
-/

/-- A JSON document. -/
inductive Json where
  | null : Json
  | bool : Bool → Json
  | num : ℚ → Json
  | str : String → Json
  | arr : List Json → Json
  | obj : List (String × Json) → Json

mutual

/-- The tree `JSON.stringify` prints for a value it does not map to
`undefined`: non-finite numbers become `null`, an `undefined` array
element becomes `null`, and an `undefined`-valued object entry is
dropped. -/
def sj : JSVal → Json
  | JSVal.undef => Json.null
  | JSVal.null => Json.null
  | JSVal.bool b => Json.bool b
  | JSVal.num (JSNum.fin q) => Json.num q
  | JSVal.num _ => Json.null
  | JSVal.str s => Json.str s
  | JSVal.arr xs => Json.arr (sjList xs)
  | JSVal.obj fields => Json.obj (sjFields fields)

def sjList : List JSVal → List Json
  | [] => []
  | x :: xs => sj x :: sjList xs

def sjFields : List (String × JSVal) → List (String × Json)
  | [] => []
  | p :: ps =>
    if p.2.isUndef then sjFields ps
    else (p.1, sj p.2) :: sjFields ps

end

/-- `JSON.stringify(v)`: `undefined` (here `none`) exactly when the top
value is `undefined`. -/
def stringifyJson (v : JSVal) : Option Json :=
  if v.isUndef then none else some (sj v)

mutual

/-- The value `JSON.parse` rebuilds from a document. -/
def dj : Json → JSVal
  | Json.null => JSVal.null
  | Json.bool b => JSVal.bool b
  | Json.num q => JSVal.num (JSNum.fin q)
  | Json.str s => JSVal.str s
  | Json.arr xs => JSVal.arr (djList xs)
  | Json.obj fields => JSVal.obj (djFields fields)

def djList : List Json → List JSVal
  | [] => []
  | x :: xs => dj x :: djList xs

def djFields : List (String × Json) → List (String × JSVal)
  | [] => []
  | p :: ps => (p.1, dj p.2) :: djFields ps

end

mutual

/-- Values the JSON codec reproduces exactly: no `undefined` anywhere and
no non-finite numbers. -/
def jsonFaithful : JSVal → Bool
  | JSVal.undef => false
  | JSVal.null => true
  | JSVal.bool _ => true
  | JSVal.num (JSNum.fin _) => true
  | JSVal.num _ => false
  | JSVal.str _ => true
  | JSVal.arr xs => jsonFaithfulList xs
  | JSVal.obj fields => jsonFaithfulFields fields

def jsonFaithfulList : List JSVal → Bool
  | [] => true
  | x :: xs => jsonFaithful x && jsonFaithfulList xs

def jsonFaithfulFields : List (String × JSVal) → Bool
  | [] => true
  | p :: ps => jsonFaithful p.2 && jsonFaithfulFields ps

end

/-- `TypeValidator.parse` applied to a serialized document: decode, apply
`afterParse` when installed, validate, and either return the value or
throw the `TypeError` carrying the message. -/
def Validator.parseJson (t : Validator) (j : Json) : Except (Option String) JSVal :=
  let parsed0 := dj j
  let parsed :=
    match t.afterParse with
    | some f => f parsed0
    | none => parsed0
  let message := t.fail parsed
  if t.checkWith parsed (ErrorArg.msg message) then Except.ok parsed
  else Except.error message

/-- `t.parse(t.stringify(v))` with the default `JSON` parser: when
`JSON.stringify` yields `undefined`, `JSON.parse(undefined)` raises a
`SyntaxError` (`Except.error none`); otherwise `parse` runs on the
document. -/
def roundtrip (t : Validator) (v : JSVal) : Except (Option String) JSVal :=
  match stringifyJson v with
  | none => Except.error none
  | some j => t.parseJson j

/-!
## Concrete instances used by the claim theorems
-/

/-- `Types.number()` — no options. -/
def numberPlain : Validator := numberV noNumberOpts

/-- `Types.string()` — no options. -/
def stringPlain : Validator :=
  stringV { optional := none, defaultVal := JSVal.undef, pattern := none }

/-- `Types.boolean()` — no options. -/
def booleanPlain : Validator := booleanV noOpts

/-- The struct shape `{properties: {a: number()}}`. -/
def structDataA : StructData :=
  { properties := [("a", numberPlain)], dynamicProperties := none }

/-- `Types.struct({properties: {a: number()}})`. -/
def structA : Validator := structV none structDataA

/-- The struct shape `{properties: {}}`. -/
def structDataEmpty : StructData := { properties := [], dynamicProperties := none }

/-- `Types.struct({properties: {}})`. -/
def structEmpty : Validator := structV none structDataEmpty

/-- The object `{a: 1}`. -/
def objA1 : List (String × JSVal) := [("a", JSVal.num (JSNum.fin 1))]

/-- The object `{b: 2}`. -/
def objB : List (String × JSVal) := [("b", JSVal.num (JSNum.fin 2))]

/-- The object `{a: "x", b: 1}`. -/
def objAB : List (String × JSVal) :=
  [("a", JSVal.str "x"), ("b", JSVal.num (JSNum.fin 1))]

/-- `2^54`, a bound strictly beyond `Number.MAX_SAFE_INTEGER`. -/
def wideMax : JSNum := JSNum.fin 18014398509481984

/-- `Types.number({max: 2**54})` — a caller-supplied bound wider than the
safe-integer range. -/
def numberWide : Validator :=
  numberV { optional := none, defaultVal := JSVal.undef, min := none
            max := some wideMax, pattern := none }

/-- `Types.number({defaultVal: 5})`. -/
def numberWithDefault : Validator :=
  numberV { optional := none, defaultVal := JSVal.num (JSNum.fin 5)
            min := none, max := none, pattern := none }

/-- The struct shape `{properties: {a: number({defaultVal: 5})}}`. -/
def structDataD : StructData :=
  { properties := [("a", numberWithDefault)], dynamicProperties := none }

/-- `NumberOptions` carrying only `min`/`max`. -/
def rangeOpts (mi ma : Option JSNum) : NumberOpts :=
  { optional := none, defaultVal := JSVal.undef, min := mi, max := ma
    pattern := none }

/-!
## Claim theorems
-/

/-- C10: for every struct validator, every object and every key, the
public method `hasOwn` returns `false`: `getType` returns a two-element
array on each of its paths and never `undefined`, so the comparison
`getType(object, key) === undefined` never holds — whether or not the
object owns the key. -/
theorem c10_hasOwn_always_false (s : StructData) (object : JSVal) (key : String) :
    structHasOwn s object key = false := by
  simp [structHasOwn, getTypeS]

/-- C2 (failing input): `struct({properties: {a: number()}}).fail({})`
returns `undefined` — the key loop skips absent keys and no "Missing
keys" entry is ever computed — although the declared property `a`
resolves to a non-optional `number()` validator that rejects
`undefined`. -/
theorem c2_missing_keys_never_reported :
    structA.fail (JSVal.obj []) = none ∧
    lookupProp structDataA.properties "a" = some numberPlain ∧
    numberPlain.fail JSVal.undef ≠ none := by
  refine ⟨rfl, rfl, ?_⟩
  intro h
  exact Option.noConfusion h

/-- C7 (failing input): on a struct-typed object-like config whose single
property `a` is `number()` with no declared default, `keyList` in mode
`default` returns `['a']` — the source filters property entries by
`value !== undefined` where `value` is the property's validator object,
so the filter always holds — although the declared default of `a` is
`undefined` and the claim requires `[]`. -/
theorem c7_keyList_default_ignores_defaults :
    keyListStructModel structA structDataA (JSVal.obj []) GetMode.default
      = Except.ok ["a"] ∧
    numberPlain.defaultVal = JSVal.undef := by
  exact ⟨rfl, rfl⟩

/-- C6: whenever `failSet` returns an error message, the live `data` is
unchanged — every rejection path returns before the keyed assignment
runs. -/
theorem c6_failed_set_leaves_data_unchanged (t : Validator) (data : JSVal)
    (key : String) (value : JSVal) (data1 : JSVal) (m : String)
    (h : failSetModel t data key value = Except.ok (data1, some m)) :
    data1 = data := by
  unfold failSetModel at h
  split at h
  · simp_all
  · split at h
    · simp_all
    · split at h <;> simp_all

/-- C6 witness: setting `a := 5` on a struct config holding `{}` fails
(the whole-struct check rejects the scalar) and leaves the data `{}`. -/
theorem c6_witness :
    failSetModel structA (JSVal.obj []) "a" (JSVal.num (JSNum.fin 5))
      = Except.ok (JSVal.obj [],
          some "Unable to set the key: 'a'. Got: 5. The value should be a struct.") ∧
    (JSVal.obj [] : JSVal) = JSVal.obj [] := by
  refine ⟨rfl, ?_⟩
  exact c6_failed_set_leaves_data_unchanged structA (JSVal.obj []) "a"
    (JSVal.num (JSNum.fin 5)) (JSVal.obj []) _ rfl

/-- C3 counterexample: on the object-like config `{a: 1}` of type
`struct({properties: {a: number()}})`, the key `a` resolves to the
`number()` validator and that validator accepts `5`, yet
`failSet('a', 5)` rejects — `failSet` checks the value against the whole
struct type, not against the key's resolved element validator. -/
theorem c3_counterexample :
    structA.fail (JSVal.obj objA1) = none ∧
    resolvedPropType structDataA objA1 "a" = some numberPlain ∧
    numberPlain.fail (JSVal.num (JSNum.fin 5)) = none ∧
    failSetModel structA (JSVal.obj objA1) "a" (JSVal.num (JSNum.fin 5))
      = Except.ok (JSVal.obj objA1,
          some "Unable to set the key: 'a'. Got: 5. The value should be a struct.") := by
  exact ⟨rfl, rfl, rfl, rfl⟩

/-- C3 amended: for a config whose `type` is struct/object-shaped and
whose data is a plain object, `failSet(key, value)` accepts `value` iff
the config's whole type validator accepts `value` on its own (the key's
resolved element validator is not consulted); on rejection the message
names the key and the formatted offending value, and on acceptance the
key is assigned. -/
theorem c3_amended_whole_type_check (t : Validator)
    (fields : List (String × JSVal)) (key : String) (value : JSVal)
    (hobj : t.isObjectLike = true) :
    (t.fail value = none →
      failSetModel t (JSVal.obj fields) key value
        = Except.ok (JSVal.obj (setField fields key value), none)) ∧
    (∀ e, t.fail value = some e →
      failSetModel t (JSVal.obj fields) key value
        = Except.ok (JSVal.obj fields,
            some ("Unable to set the key: '" ++ key ++ "'. Got: "
              ++ formatO value ++ ". " ++ e))) := by
  constructor
  · intro hv
    unfold failSetModel
    simp [isObjectLikeModel, hobj, Validator.checkWith, hv, jsSetKeyOrInit, jsFalsy]
  · intro e he
    unfold failSetModel
    simp [isObjectLikeModel, hobj, Validator.checkWith, he]

/-- C3 amended witness: on the same config, `failSet('b', 'x')` rejects
with the message naming `b` and `'x'`. -/
theorem c3_amended_witness :
    failSetModel structA (JSVal.obj objA1) "b" (JSVal.str "x")
      = Except.ok (JSVal.obj objA1,
          some "Unable to set the key: 'b'. Got: 'x'. The value should be a struct.") := by
  exact (c3_amended_whole_type_check structA objA1 "b" (JSVal.str "x") rfl).2 _ rfl

/-- C4 counterexample: the backing file exists and decodes to the valid
value `{a: 5}`, yet `failLoad` does not adopt it — the message is
`fail(parsed) ?? fail(this.data)` and the currently held default
`{a: undefined}` fails the struct check, so `check(parsed, message)` is
false and `data` stays at the default, which differs from the decoded
value. -/
theorem c4_decoded_valid_but_not_adopted :
    structA.fail (JSVal.obj [("a", JSVal.num (JSNum.fin 5))]) = none ∧
    (failLoadModel structA "cfg.json" (structDefaultVal structDataA.properties)
        (DiskRead.decoded (JSVal.obj [("a", JSVal.num (JSNum.fin 5))]))).1
      = structDefaultVal structDataA.properties ∧
    structDefaultVal structDataA.properties
      ≠ JSVal.obj [("a", JSVal.num (JSNum.fin 5))] := by
  refine ⟨rfl, rfl, ?_⟩
  intro h
  exact absurd (congrArg (fun w => (jsIndex w "a").isUndef) h) (by decide)

/-- C4 amended: for a file that exists and decodes to `v`, `failLoad`
replaces `data` with `v` iff both `v` and the already-held `data`
satisfy the type check (returning no message); when `v` fails, `data`
is unchanged and `v`'s own validation message is returned; when `v`
passes but the held data fails, `data` is also unchanged and the held
data's validation message is returned. -/
theorem c4_amended_load_adoption (t : Validator) (path : String)
    (data0 v : JSVal) :
    (t.fail v = none → t.fail data0 = none →
      failLoadModel t path data0 (DiskRead.decoded v) = (v, none)) ∧
    (∀ m, t.fail v = some m →
      failLoadModel t path data0 (DiskRead.decoded v) = (data0, some m)) ∧
    (∀ m, t.fail v = none → t.fail data0 = some m →
      failLoadModel t path data0 (DiskRead.decoded v) = (data0, some m)) := by
  refine ⟨?_, ?_, ?_⟩
  · intro hv hd
    simp [failLoadModel, failLoadStep, Validator.checkWith, hv, hd, Option.or]
  · intro m hv
    simp [failLoadModel, failLoadStep, Validator.checkWith, hv, Option.or]
  · intro m hv hd
    simp [failLoadModel, failLoadStep, Validator.checkWith, hv, hd, Option.or]

/-- C4 amended witness: a boolean config holding a valid `false` adopts a
decoded valid `true` with no message. -/
theorem c4_amended_witness :
    failLoadModel booleanPlain "cfg.json" (JSVal.bool false)
        (DiskRead.decoded (JSVal.bool true))
      = (JSVal.bool true, none) := by
  exact (c4_amended_load_adoption booleanPlain "cfg.json"
    (JSVal.bool false) (JSVal.bool true)).1 rfl rfl

/-- C5 counterexample: `struct({properties: {a: number()}})` constructs
successfully, yet its composed `defaultVal` (`{a: undefined}`, since
`number()` declares no default) fails the struct itself — no
construction-time validation of the composed default exists. -/
theorem c5_default_can_violate_struct :
    structA.fail structA.defaultVal
      = some ("The value should be a struct:\nBad value for the key 'a'. "
        ++ "Should be a number: -Infinity - Infinity. Got: undefined.") := by
  rfl

/-- Looking a key up in the composed default record is looking the
property up and taking its validator's default. -/
theorem lookupField_map_default (props : List (String × Validator)) (k : String) :
    lookupField (props.map (fun kt => (kt.1, kt.2.defaultVal))) k
      = (lookupProp props k).map Validator.defaultVal := by
  induction props with
  | nil => rfl
  | cons p ps ih =>
    simp only [List.map_cons, lookupField, lookupProp, List.find?] at ih ⊢
    cases hk : p.1 == k
    · simpa [hk] using ih
    · simp [hk]

/-- For a dynamic-free struct whose property validators all accept their
own defaults, no key of the composed default record contributes an
error entry. -/
theorem structEntry_default_none (props : List (String × Validator))
    (h : ∀ kt ∈ props, Validator.fail kt.2 kt.2.defaultVal = none) (k : String) :
    structEntry { properties := props, dynamicProperties := none }
      (props.map (fun kt => (kt.1, kt.2.defaultVal))) k = none := by
  unfold structEntry
  cases hh : hasFieldV (JSVal.obj (props.map (fun kt => (kt.1, kt.2.defaultVal)))) k
  · simp
  · have hlk : (lookupField (props.map (fun kt => (kt.1, kt.2.defaultVal))) k).isSome
        = true := by simpa [hasFieldV] using hh
    have hsome : (lookupProp props k).isSome := by
      rw [lookupField_map_default] at hlk
      simpa [Option.isSome_map] using hlk
    obtain ⟨t, ht⟩ := Option.isSome_iff_exists.mp hsome
    have hmem : ∃ kt ∈ props, kt.2 = t := by
      unfold lookupProp at ht
      obtain ⟨pair, hpair, hsnd⟩ := Option.map_eq_some'.mp ht
      exact ⟨pair, List.mem_of_find?_eq_some hpair, hsnd⟩
    obtain ⟨kt, hktmem, hkt2⟩ := hmem
    have hidx : jsIndex (JSVal.obj (props.map (fun kt => (kt.1, kt.2.defaultVal)))) k
        = t.defaultVal := by
      simp [jsIndex, lookupField_map_default, ht]
    have hfail : t.fail t.defaultVal = none := hkt2 ▸ h kt hktmem
    simp [hh, getTypeCore, ht, hidx, hfail, emptyDynCalc]

/-- C5 amended: the composed default is the property-wise record of the
property validators' own defaults and is not validated at construction;
it does satisfy the struct whenever every property validator accepts its
own default (for a struct without dynamic properties). -/
theorem c5_amended_default_conditional (optionalOpt : Option Bool)
    (props : List (String × Validator))
    (h : ∀ kt ∈ props, Validator.fail kt.2 kt.2.defaultVal = none) :
    (structV optionalOpt { properties := props, dynamicProperties := none }).fail
      (structV optionalOpt
        { properties := props, dynamicProperties := none }).defaultVal = none := by
  have hlist : structErrorList { properties := props, dynamicProperties := none }
      (props.map (fun kt => (kt.1, kt.2.defaultVal))) = [] := by
    unfold structErrorList
    exact List.filterMap_eq_nil_iff.mpr
      (fun k _ => structEntry_default_none props h k)
  simp [structV, Validator.fail, structDefaultVal, structFailCore, hlist]

/-- C5 amended witness: with `a: number({defaultVal: 5})` the composed
default `{a: 5}` satisfies the struct. -/
theorem c5_amended_witness :
    (structV none structDataD).fail (structV none structDataD).defaultVal = none := by
  refine c5_amended_default_conditional none structDataD.properties ?_
  intro kt hkt
  have h1 : kt = ("a", numberWithDefault) := List.mem_singleton.mp hkt
  subst h1
  rfl

/-- C9 counterexample: `number({max: 2**54})` was given a bound beyond
the safe-integer range; the exactly representable double `2**54 + 4`
exceeds it, and the failure message reports the raw bound
`18014398509481984` — the safe-integer numeral `9007199254740991` never
occurs in the message, so the displayed bounds are not clamped. -/
theorem c9_bounds_not_clamped :
    numberWide.fail (JSVal.num (JSNum.fin 18014398509481988))
      = some "Should be a number: -Infinity - 18014398509481984. Got: 18014398509481988." ∧
    countOccs "9007199254740991"
      "Should be a number: -Infinity - 18014398509481984. Got: 18014398509481988." = 0 ∧
    jsLe maxSafeInteger wideMax = true ∧ maxSafeInteger ≠ wideMax := by
  refine ⟨rfl, by decide, by decide, by decide⟩

/-- C9 amended: `number`/`integer` accept a numeric value exactly when it
satisfies the caller's raw bounds under the ordinary JS comparison
(`value <= max && value >= min`; an infinite value passes precisely
because `Infinity <= Infinity`, there is no separate carve-out), and a
range failure reports the raw bounds through `labeledNumber`, which never
replaces a bound by a clamped value — it only appends a textual label
when the bound is exactly `±MAX_SAFE_INTEGER`. -/
theorem c9_amended_raw_bounds (mi ma : Option JSNum) (n : JSNum) :
    ((numberV (rangeOpts mi ma)).fail (JSVal.num n)
      = (if jsLe n (ma.getD JSNum.posInf) && jsGe n (mi.getD JSNum.negInf) then none
         else some (numRangeError "a" "number" (mi.getD JSNum.negInf)
           (ma.getD JSNum.posInf) (JSVal.num n)))) ∧
    ((integerV (rangeOpts mi ma)).fail (JSVal.num n)
      = (if (jsLe n (ma.getD JSNum.posInf) && jsGe n (mi.getD JSNum.negInf))
            && jsIsInteger n then none
         else some (numRangeError "an" "integer" (mi.getD JSNum.negInf)
           (ma.getD JSNum.posInf) (JSVal.num n)))) ∧
    (∀ b : JSNum,
      labeledNumber b
        = (if b = maxSafeInteger then jsNumToString b ++ " (Max safe integer)"
           else if b = minSafeInteger then jsNumToString b ++ " (Min safe integer)"
           else jsNumToString b)) := by
  refine ⟨?_, ?_, ?_⟩
  · cases hmm : jsLe n (ma.getD JSNum.posInf) && jsGe n (mi.getD JSNum.negInf) <;>
      · simp only [numberV, rangeOpts, Validator.fail, hmm, mkTypeName]
        simp
  · cases hmm : jsLe n (ma.getD JSNum.posInf) && jsGe n (mi.getD JSNum.negInf) <;>
      cases hii : jsIsInteger n <;>
      · simp only [integerV, rangeOpts, Validator.fail, hmm, hii, mkTypeName]
        simp
  · intro b
    by_cases h1 : b = maxSafeInteger
    · subst h1; rfl
    · by_cases h2 : b = minSafeInteger
      · subst h2; rfl
      · simp [labeledNumber, h1, h2]

/-- C9 amended witness: `number({min: 0, max: 10})` rejects `11` with the
raw bounds in the message. -/
theorem c9_amended_witness :
    (numberV (rangeOpts (some (JSNum.fin 0)) (some (JSNum.fin 10)))).fail
        (JSVal.num (JSNum.fin 11))
      = some (numRangeError "a" "number" (JSNum.fin 0) (JSNum.fin 10)
          (JSVal.num (JSNum.fin 11))) := by
  rw [(c9_amended_raw_bounds (some (JSNum.fin 0)) (some (JSNum.fin 10))
    (JSNum.fin 11)).1]
  rfl

/-- A JSON-faithful value is not `undefined`. -/
theorem jsonFaithful_not_undef (v : JSVal) (h : jsonFaithful v = true) :
    v.isUndef = false := by
  cases v
  case undef => simp [jsonFaithful] at h
  all_goals rfl

/-- Elements of a JSON-faithful array are JSON-faithful. -/
theorem jsonFaithfulList_mem {xs : List JSVal} (h : jsonFaithfulList xs = true)
    {x : JSVal} (hx : x ∈ xs) : jsonFaithful x = true := by
  induction xs with
  | nil => cases hx
  | cons y ys ih =>
    simp only [jsonFaithfulList, Bool.and_eq_true] at h
    rcases List.mem_cons.mp hx with rfl | hmem
    · exact h.1
    · exact ih h.2 hmem

/-- Values of a JSON-faithful object are JSON-faithful. -/
theorem jsonFaithfulFields_mem {ps : List (String × JSVal)}
    (h : jsonFaithfulFields ps = true) {p : String × JSVal} (hp : p ∈ ps) :
    jsonFaithful p.2 = true := by
  induction ps with
  | nil => cases hp
  | cons q qs ih =>
    simp only [jsonFaithfulFields, Bool.and_eq_true] at h
    rcases List.mem_cons.mp hp with rfl | hmem
    · exact h.1
    · exact ih h.2 hmem

/-- Decoding after encoding is the identity on a list whose elements
round-trip. -/
theorem djList_sjList (xs : List JSVal) (h : ∀ x ∈ xs, dj (sj x) = x) :
    djList (sjList xs) = xs := by
  induction xs with
  | nil => rfl
  | cons y ys ih =>
    simp only [sjList, djList]
    rw [h y (List.mem_cons_self y ys),
      ih (fun x hx => h x (List.mem_cons_of_mem y hx))]

/-- Decoding after encoding is the identity on an entry list with no
`undefined` values whose values round-trip. -/
theorem djFields_sjFields (ps : List (String × JSVal))
    (h : ∀ p ∈ ps, p.2.isUndef = false ∧ dj (sj p.2) = p.2) :
    djFields (sjFields ps) = ps := by
  induction ps with
  | nil => rfl
  | cons q qs ih =>
    have hq := h q (List.mem_cons_self q qs)
    simp only [sjFields, hq.1, Bool.false_eq_true, if_false, djFields, hq.2]
    rw [ih (fun p hp => h p (List.mem_cons_of_mem q hp))]

/-- The JSON codec reproduces every JSON-faithful value exactly
(size-bounded form for the induction). -/
theorem dj_sj_aux :
    ∀ (n : ℕ) (v : JSVal), sizeOf v ≤ n → jsonFaithful v = true →
      dj (sj v) = v := by
  intro n
  induction n with
  | zero =>
    intro v hle _
    exfalso
    cases v <;> simp_all
  | succ n ih =>
    intro v hle hf
    cases v with
    | undef => simp [jsonFaithful] at hf
    | null => rfl
    | bool b => rfl
    | str s => rfl
    | num m =>
      cases m with
      | fin q => rfl
      | posInf => simp [jsonFaithful] at hf
      | negInf => simp [jsonFaithful] at hf
      | nan => simp [jsonFaithful] at hf
    | arr xs =>
      have hel : ∀ x ∈ xs, dj (sj x) = x := by
        intro x hx
        have h1 : sizeOf x < sizeOf xs := List.sizeOf_lt_of_mem hx
        have h2 : sizeOf (JSVal.arr xs) = 1 + sizeOf xs := by simp
        refine ih x (by omega) (jsonFaithfulList_mem ?_ hx)
        simpa [jsonFaithful] using hf
      simp only [sj, dj]
      rw [djList_sjList xs hel]
    | obj fs =>
      have hfs : ∀ p ∈ fs, p.2.isUndef = false ∧ dj (sj p.2) = p.2 := by
        intro p hp
        have hfp : jsonFaithful p.2 = true :=
          jsonFaithfulFields_mem (by simpa [jsonFaithful] using hf) hp
        have h1 : sizeOf p < sizeOf fs := List.sizeOf_lt_of_mem hp
        have h2 : sizeOf (JSVal.obj fs) = 1 + sizeOf fs := by simp
        have h3 : sizeOf p.2 < sizeOf p := by
          obtain ⟨a, b⟩ := p
          simp
        exact ⟨jsonFaithful_not_undef p.2 hfp, ih p.2 (by omega) hfp⟩
      simp only [sj, dj]
      rw [djFields_sjFields fs hfs]

/-- The JSON codec reproduces every JSON-faithful value exactly. -/
theorem dj_sj (v : JSVal) (h : jsonFaithful v = true) : dj (sj v) = v :=
  dj_sj_aux (sizeOf v) v le_rfl h

/-- C8 counterexample: `number()` accepts `Infinity`
(`Infinity <= Infinity` holds for the default bounds), but
`JSON.stringify(Infinity)` prints `null`, so
`parse(stringify(Infinity))` throws the `TypeError` for `null` instead
of producing a valid value — the round-trip claim fails. -/
theorem c8_roundtrip_fails_on_infinity :
    numberPlain.checkWith (JSVal.num JSNum.posInf) ErrorArg.sentinel = true ∧
    roundtrip numberPlain (JSVal.num JSNum.posInf)
      = Except.error
          (some "Should be a number: -Infinity - Infinity. Got: null.") := by
  exact ⟨rfl, rfl⟩

/-- C8 amended: for every validator without a post-decode transform and
every accepted value that the JSON codec represents exactly (no
`undefined` anywhere and no non-finite numbers),
`parse(stringify(v))` returns `v` itself and the result still checks. -/
theorem c8_amended_roundtrip (t : Validator) (v : JSVal)
    (hap : t.afterParse = none) (hv : t.fail v = none)
    (hf : jsonFaithful v = true) :
    roundtrip t v = Except.ok v ∧ t.checkWith v ErrorArg.sentinel = true := by
  have hvu : v.isUndef = false := jsonFaithful_not_undef v hf
  constructor
  · unfold roundtrip stringifyJson
    rw [hvu]
    simp [Validator.parseJson, hap, dj_sj v hf, hv, Validator.checkWith]
  · simp [Validator.checkWith, hv]

/-- C8 amended witness: `string()` accepts `"hi"`, which round-trips to
itself. -/
theorem c8_amended_witness :
    roundtrip stringPlain (JSVal.str "hi") = Except.ok (JSVal.str "hi") ∧
    stringPlain.checkWith (JSVal.str "hi") ErrorArg.sentinel = true :=
  c8_amended_roundtrip stringPlain (JSVal.str "hi") rfl rfl rfl

/-- C1 counterexample: `struct({properties: {}})` applied to `{b: 2}`
(which passes the plain-object gate) produces a message with one
`key '<k>'` mention (`Unexpected key 'b'.`), while the number of present
keys whose resolved validator rejects its value is zero — the claimed
equation fails because unexpected keys also produce `key` mentions. -/
theorem c1_mention_count_counterexample :
    structEmpty.fail (JSVal.obj objB)
      = some "The value should be a struct:\nUnexpected key 'b'." ∧
    countOccs "key '" "The value should be a struct:\nUnexpected key 'b'." = 1 ∧
    ((objB.map Prod.fst).filter (keyRejected structDataEmpty objB)).length = 0 := by
  refine ⟨rfl, by decide, rfl⟩

/-- The length of a `filterMap` counts the inputs mapped to `some`. -/
theorem length_filterMap_eq_countP {α β : Type} (f : α → Option β) (l : List α) :
    (l.filterMap f).length = l.countP (fun a => (f a).isSome) := by
  induction l with
  | nil => rfl
  | cons x xs ih =>
    cases hfx : f x <;>
      simp [List.filterMap_cons, hfx, List.countP_cons, ih]

/-- Membership in the first-occurrence deduplication. -/
theorem mem_dedupFirstAux (a : String) (seen l : List String) :
    a ∈ dedupFirstAux seen l ↔ a ∈ l ∧ a ∉ seen := by
  induction l generalizing seen with
  | nil => simp [dedupFirstAux]
  | cons x xs ih =>
    by_cases hx : x ∈ seen
    · simp only [dedupFirstAux, if_pos hx, ih, List.mem_cons]
      constructor
      · rintro ⟨h1, h2⟩
        exact ⟨Or.inr h1, h2⟩
      · rintro ⟨h1 | h1, h2⟩
        · exact absurd (h1 ▸ hx) h2
        · exact ⟨h1, h2⟩
    · simp only [dedupFirstAux, if_neg hx, List.mem_cons, ih, List.mem_cons]
      constructor
      · rintro (rfl | ⟨h1, h2⟩)
        · exact ⟨Or.inl rfl, hx⟩
        · exact ⟨Or.inr h1, fun hs => h2 (Or.inr hs)⟩
      · rintro ⟨rfl | h1, h2⟩
        · exact Or.inl rfl
        · by_cases hax : a = x
          · exact Or.inl hax
          · exact Or.inr ⟨h1, fun hs => hs.elim (fun he => hax he) h2⟩
  
/-- Membership in `Array.from(new Set(l))`. -/
theorem mem_dedupFirst (a : String) (l : List String) :
    a ∈ dedupFirst l ↔ a ∈ l := by
  simp [dedupFirst, mem_dedupFirstAux]

/-- First-occurrence deduplication has no duplicates. -/
theorem nodup_dedupFirstAux (seen l : List String) :
    (dedupFirstAux seen l).Nodup := by
  induction l generalizing seen with
  | nil => simp [dedupFirstAux]
  | cons x xs ih =>
    by_cases hx : x ∈ seen
    · simpa [dedupFirstAux, if_pos hx] using ih seen
    · simp only [dedupFirstAux, if_neg hx]
      refine List.nodup_cons.mpr ⟨?_, ih (x :: seen)⟩
      intro hmem
      exact ((mem_dedupFirstAux x (x :: seen) xs).mp hmem).2
        (List.mem_cons_self x seen)

/-- `Array.from(new Set(l))` has no duplicates. -/
theorem nodup_dedupFirst (l : List String) : (dedupFirst l).Nodup :=
  nodup_dedupFirstAux [] l

/-- Counting a disjunction of mutually exclusive predicates splits. -/
theorem countP_or_disjoint {α : Type} (p q : α → Bool) (l : List α)
    (hdisj : ∀ a ∈ l, ¬(p a = true ∧ q a = true)) :
    l.countP (fun a => p a || q a) = l.countP p + l.countP q := by
  induction l with
  | nil => rfl
  | cons x xs ih =>
    simp only [List.countP_cons]
    rw [ih (fun a ha => hdisj a (List.mem_cons_of_mem x ha))]
    have hx := hdisj x (List.mem_cons_self x xs)
    cases hp : p x <;> cases hq : q x <;> simp_all <;> omega

/-- A key owns an entry of the error list exactly when it is present and
either its resolved validator rejects it or no validator resolves. -/
theorem structEntry_isSome (s : StructData) (fields : List (String × JSVal))
    (k : String) :
    (structEntry s fields k).isSome
      = (hasFieldV (JSVal.obj fields) k
          && (keyRejected s fields k || keyUnexpected s fields k)) := by
  unfold structEntry keyRejected keyUnexpected resolvedPropType
  cases hh : hasFieldV (JSVal.obj fields) k
  · simp
  · cases hr : (getTypeCore s (JSVal.obj fields) k).1 with
    | none => simp [hr]
    | some t =>
      cases hf : t.fail (jsIndex (JSVal.obj fields) k) <;> simp [hr, hf]

/-- A key binding exists exactly when the key occurs among the entry
keys. -/
theorem lookupField_isSome_iff (fields : List (String × JSVal)) (k : String) :
    (lookupField fields k).isSome = true ↔ k ∈ fields.map Prod.fst := by
  unfold lookupField
  cases hfind : fields.find? (fun p => p.1 == k) with
  | none =>
    simp only [hfind, Option.map_none', Option.isSome_none]
    constructor
    · intro h
      exact Bool.noConfusion h
    · intro h
      obtain ⟨pr, hmem, hk⟩ := List.mem_map.mp h
      have hs : (fields.find? (fun p => p.1 == k)).isSome := by
        rw [List.find?_isSome]
        exact ⟨pr, hmem, by simp [hk]⟩
      rw [hfind] at hs
      exact absurd hs (by simp)
  | some pr =>
    simp only [hfind, Option.map_some', Option.isSome_some, true_iff]
    have hmem := List.mem_of_find?_eq_some hfind
    have hk := List.find?_some hfind
    exact List.mem_map.mpr ⟨pr, hmem, by simpa using hk⟩

/-- Own-key membership as list membership. -/
theorem hasFieldV_obj_iff (fields : List (String × JSVal)) (k : String) :
    hasFieldV (JSVal.obj fields) k = true ↔ k ∈ fields.map Prod.fst :=
  lookupField_isSome_iff fields k

/-- C1 amended: for every struct validator and every value passing the
plain-object gate, the aggregated error list carries exactly one entry
per problematic present key: its length is the number of present keys
whose resolved validator rejects their value plus the number of present
keys to which no validator resolves (the unexpected keys) — the loop
never stops at the first bad key, but unexpected keys contribute `key`
mentions too. -/
theorem c1_amended_entry_count (s : StructData)
    (fields : List (String × JSVal)) (hnd : (fields.map Prod.fst).Nodup) :
    (structErrorList s fields).length
      = ((fields.map Prod.fst).filter (keyRejected s fields)).length
        + ((fields.map Prod.fst).filter (keyUnexpected s fields)).length := by
  have h1 : (structErrorList s fields).length
      = (keysToProcessS s fields).countP
          (fun k => (structEntry s fields k).isSome) :=
    length_filterMap_eq_countP _ _
  have h2 : (keysToProcessS s fields).countP
        (fun k => (structEntry s fields k).isSome)
      = (keysToProcessS s fields).countP
          (fun k => (keyRejected s fields k || keyUnexpected s fields k)
            && hasFieldV (JSVal.obj fields) k) := by
    refine List.countP_congr ?_
    intro k _
    rw [structEntry_isSome]
    constructor
    · intro h
      simpa [Bool.and_comm] using h
    · intro h
      simpa [Bool.and_comm] using h
  have h3 : (keysToProcessS s fields).countP
        (fun k => (keyRejected s fields k || keyUnexpected s fields k)
          && hasFieldV (JSVal.obj fields) k)
      = ((keysToProcessS s fields).filter
          (fun k => hasFieldV (JSVal.obj fields) k)).countP
          (fun k => keyRejected s fields k || keyUnexpected s fields k) :=
    (List.countP_filter _ _ _).symm
  have hperm : ((keysToProcessS s fields).filter
        (fun k => hasFieldV (JSVal.obj fields) k)).Perm (fields.map Prod.fst) := by
    refine List.perm_of_nodup_nodup_toFinset_eq
      ((nodup_dedupFirst _).filter _) hnd ?_
    ext a
    simp only [List.mem_toFinset, List.mem_filter, keysToProcessS,
      mem_dedupFirst, List.mem_append, hasFieldV_obj_iff]
    constructor
    · rintro ⟨_, h2⟩
      exact h2
    · intro h
      exact ⟨Or.inr h, h⟩
  have h4 : ((keysToProcessS s fields).filter
        (fun k => hasFieldV (JSVal.obj fields) k)).countP
        (fun k => keyRejected s fields k || keyUnexpected s fields k)
      = (fields.map Prod.fst).countP
          (fun k => keyRejected s fields k || keyUnexpected s fields k) :=
    hperm.countP_eq _
  have h5 : (fields.map Prod.fst).countP
        (fun k => keyRejected s fields k || keyUnexpected s fields k)
      = (fields.map Prod.fst).countP (keyRejected s fields)
        + (fields.map Prod.fst).countP (keyUnexpected s fields) := by
    refine countP_or_disjoint _ _ _ ?_
    intro a _
    rintro ⟨hp, hq⟩
    unfold keyRejected at hp
    unfold keyUnexpected at hq
    rcases hr : resolvedPropType s fields a with _ | t
    · rw [hr] at hp
      exact Bool.noConfusion hp
    · rw [hr] at hq
      simp at hq
  rw [h1, h2, h3, h4, h5, List.countP_eq_length_filter,
    List.countP_eq_length_filter]

/-- C1 amended witness: on `{a: "x", b: 1}` against
`struct({properties: {a: number()}})` the error list has two entries —
one for the rejected `a`, one for the unexpected `b`. -/
theorem c1_amended_witness :
    ((objAB.map Prod.fst).Nodup) ∧
    (structErrorList structDataA objAB).length
      = ((objAB.map Prod.fst).filter (keyRejected structDataA objAB)).length
        + ((objAB.map Prod.fst).filter (keyUnexpected structDataA objAB)).length :=
  ⟨by decide, c1_amended_entry_count structDataA objAB (by decide)⟩
